import Mathlib

/-!
Verification of the rpc-perf entry point (`src/main.rs`): a shallow
embedding of the startup control flow, the IP-family selection, the
per-worker connection-establishment loop, and the bounded work queue,
together with theorems settling the specified properties.
-/

namespace RpcPerf

/-! ## Net layer: the three-valued IP-family restriction -/

/-- The `InternetProtocol` enum from the net module, as used by
`choose_layer_3` in `main.rs`. -/
inductive InternetProtocol where
  | Any
  | IpV4
  | IpV6
  deriving DecidableEq, Repr

/-- Embedding of `choose_layer_3` (`main.rs`, lines 169-183): maps the two
command-line family flags to a family restriction, rejecting the
conflicting combination. -/
def choose_layer_3 (ipv4 ipv6 : Bool) : Except String InternetProtocol :=
  if ipv4 && ipv6 then
    .error "Use only --ipv4 or --ipv6"
  else
    if !ipv4 && !ipv6 then
      .ok .Any
    else if ipv4 then
      .ok .IpV4
    else if ipv6 then
      .ok .IpV6
    else
      .error "No InternetProtocols remaining! Bad config/options"

/-! ## Worker startup: the `start` function (`main.rs`, lines 75-119) -/

/-- An abstract resolved network endpoint (a `SocketAddr`), identified by a
number; the embedding never inspects it beyond identity. -/
structure Addr where
  id : Nat
  deriving DecidableEq, Repr

/-- One configured server, with the outcome of `to_socket_addrs` for its
address string: `none` models a resolver error, `some l` the list of
resolved endpoints in resolution order. -/
structure ServerCfg where
  addrs : Option (List Addr)
  deriving DecidableEq, Repr

/-- The readiness interest passed to `event_loop.register` (mio
`EventSet`). -/
inductive EventSet where
  | writable
  | readable
  deriving DecidableEq, Repr

/-- The polling options passed to `event_loop.register` (mio `PollOpt`
flags). -/
structure PollOpt where
  edge : Bool
  oneshot : Bool
  deriving DecidableEq, Repr

/-- One registration performed on the event loop during startup. -/
structure Registration where
  token : Nat
  interest : EventSet
  opts : PollOpt
  deriving DecidableEq, Repr

/-- The observable state accumulated by `start` while it establishes
connections: the `failures` and `connects` counters, the tokens occupying
the client's connection table (`client.connections`), the registrations
performed on the event loop, and the endpoints passed to
`net::to_mio_tcp_stream`, in order. -/
structure StartState where
  failures : Nat
  connects : Nat
  table : List Nat
  regs : List Registration
  attempts : List Addr
  deriving DecidableEq, Repr

/-- The state of a worker before any connection attempt. -/
def initState : StartState :=
  { failures := 0, connects := 0, table := [], regs := [], attempts := [] }

/-- One iteration of the inner loop of `start` (`main.rs`, lines 85-109):
attempt a connection to `a`; on success (`ok = true`) try to insert into
the connection table and, when insertion yields a token, register the
socket writable with edge-triggered, one-shot options; a full table only
logs ("too many established connections"). On connection failure bump the
failure counter. Modelled from the spec: the connection table itself lives
in `client.rs`, which is not part of this repository's sources; per the
spec it is an arena-style slab indexed by a stable integer slot, embedded
here as a token list of some capacity `cap`, insertion yielding the next
free token. -/
def attemptStep (cap : Nat) (a : Addr) : Bool → StartState → StartState
  | true, s =>
    if s.table.length < cap then
      { failures := s.failures, connects := s.connects + 1,
        table := s.table ++ [s.table.length],
        regs := s.regs ++ [⟨s.table.length, .writable, ⟨true, true⟩⟩],
        attempts := s.attempts ++ [a] }
    else
      { s with attempts := s.attempts ++ [a] }
  | false, s =>
    { s with failures := s.failures + 1, attempts := s.attempts ++ [a] }

/-- The inner `for _ in 0..config.connections` loop of `start`, attempting
`conns` connections to the single endpoint `a`; `connOk i` is the outcome
of the i-th attempt to that endpoint. -/
def runAttempts (cap conns : Nat) (a : Addr) (connOk : Addr → Nat → Bool)
    (s : StartState) : StartState :=
  (List.range conns).foldl (fun st i => attemptStep cap a (connOk a i) st) s

/-- The outer `for server in &config.servers` loop of `start` (`main.rs`,
lines 82-111). For each server the address is
`server.to_socket_addrs().unwrap().next().unwrap()`: a resolver error or
an empty resolution list makes the worker thread panic, modelled by
`none`; otherwise only the head of the resolution list is used. -/
def startLoop (cap conns : Nat) (connOk : Addr → Nat → Bool) :
    List ServerCfg → StartState → Option StartState
  | [], s => some s
  | srv :: rest, s =>
    match srv.addrs with
    | none => none
    | some [] => none
    | some (a :: _) => startLoop cap conns connOk rest (runAttempts cap conns a connOk s)

/-- The result of running `start`: a panic (failed `unwrap` during
resolution), `process::exit(1)`, or entry into `event_loop.run` with the
accumulated state. -/
inductive StartResult where
  | panicked
  | exitCode (code : Nat)
  | eventLoopRun (s : StartState)
  deriving DecidableEq, Repr

/-- Embedding of `start` (`main.rs`, lines 75-119): establish the
connections, then `if failures == config.connections` exit the process
with status 1, else run the event loop. Note the comparison is against
`config.connections` (connections per server), not against
`config.connections * servers.len()`. -/
def start (cap conns : Nat) (connOk : Addr → Nat → Bool)
    (servers : List ServerCfg) : StartResult :=
  match startLoop cap conns connOk servers initState with
  | none => .panicked
  | some s =>
    if s.failures = conns then .exitCode 1 else .eventLoopRun s

/-! ## The `main` entry point (`main.rs`, lines 187-316) -/

/-- Capacity of the work queue (`main.rs`, line 62). -/
def BUCKET_SIZE : Nat := 10000

/-- The early-return branches of `main`, in source order. Every one of
them is a plain `return` from `main`, i.e. a normal process exit. -/
inductive ReturnReason where
  | parseError
  | helpShown
  | versionShown
  | noServers
  | configLoadError
  | layer3Conflict
  | prepareError
  deriving DecidableEq, Repr

/-- The observable outcome of `main`: the process exit status, whether an
early return was taken (and why), whether and with what capacity the work
queue was created, whether workloads were launched, how many worker
threads were spawned, and whether any connection was attempted. -/
structure MainResult where
  exitCode : Nat
  returnedEarly : Bool
  reason : Option ReturnReason
  queueCreated : Option Nat
  workloadsLaunched : Bool
  threadsSpawned : Nat
  connectionsAttempted : Bool
  deriving DecidableEq, Repr

/-- The result of one early `return` in `main`: exit status 0 (a normal
return from `main`), nothing created, launched or spawned. -/
def earlyRet (r : ReturnReason) : MainResult :=
  { exitCode := 0, returnedEarly := true, reason := some r, queueCreated := none,
    workloadsLaunched := false, threadsSpawned := 0, connectionsAttempted := false }

/-- The inputs `main` branches on: whether `opts.parse` succeeded, the
flags and counts read from the matches, whether `config::load_config`
succeeded, and whether `protocol.prepare()` succeeded, plus the thread
count from the loaded configuration. -/
structure Env where
  parseOk : Bool
  help : Bool
  version : Bool
  serverCount : Nat
  configOk : Bool
  ipv4 : Bool
  ipv6 : Bool
  prepareOk : Bool
  threads : Nat
  deriving DecidableEq, Repr

/-- Embedding of `main` (`main.rs`, lines 187-316), following the source
branch order: parse errors, `--help`, `--version`, the missing-server
check, workload-config loading, `choose_layer_3`, work-queue creation
with capacity `BUCKET_SIZE`, `protocol.prepare()`, then workload launch
and the spawning of `threads` worker threads each of which runs `start`
(the only code that attempts connections). -/
def main (e : Env) : MainResult :=
  if !e.parseOk then earlyRet .parseError
  else if e.help then earlyRet .helpShown
  else if e.version then earlyRet .versionShown
  else if e.serverCount < 1 then earlyRet .noServers
  else if !e.configOk then earlyRet .configLoadError
  else
    match choose_layer_3 e.ipv4 e.ipv6 with
    | .error _ => earlyRet .layer3Conflict
    | .ok _ =>
      if !e.prepareOk then
        { earlyRet .prepareError with queueCreated := some BUCKET_SIZE }
      else
        { exitCode := 0, returnedEarly := false, reason := none,
          queueCreated := some BUCKET_SIZE, workloadsLaunched := true,
          threadsSpawned := e.threads, connectionsAttempted := decide (0 < e.threads) }

/-! ## The bounded work queue

Modelled from the spec: the queue itself comes from the external `mpmc`
crate (`use mpmc::Queue as BoundedQueue`), whose source is not part of
this repository; only its creation with capacity `BUCKET_SIZE` and the
cloning of handles are visible in `main.rs`. Section 4.4 of the spec
describes the contract: a bounded queue that rejects pushes when full
(producers retry; items are never dropped) and serves non-blocking pops. -/

/-- Modelled from the spec: the bounded multi-producer multi-consumer
queue of the external `mpmc` crate, as a capacity plus the occupied
items in order. -/
structure BoundedQueue (α : Type) where
  capacity : Nat
  items : List α
  deriving DecidableEq, Repr

/-- Modelled from the spec: `push` enqueues when the queue is below
capacity and fails (so the producer must retry) when full. -/
def BoundedQueue.push (q : BoundedQueue α) (x : α) : Option (BoundedQueue α) :=
  if q.items.length < q.capacity then
    some { q with items := q.items ++ [x] }
  else
    none

/-- Modelled from the spec: the non-blocking `pop`, returning `none` on an
empty queue. -/
def BoundedQueue.pop (q : BoundedQueue α) : Option (α × BoundedQueue α) :=
  match q.items with
  | [] => none
  | x :: rest => some (x, { q with items := rest })

/-- One operation issued against the shared queue by some producer or
consumer. -/
inductive QueueOp (α : Type) where
  | push (x : α)
  | pop
  deriving DecidableEq, Repr

/-- A queue together with the history of values successfully pushed and
successfully popped. -/
structure QueueTrace (α : Type) where
  q : BoundedQueue α
  pushed : List α
  popped : List α
  deriving DecidableEq, Repr

/-- Apply one operation to a queue, recording the effect; a failed push
(queue full) and a failed pop (queue empty) leave the trace unchanged. -/
def stepOp (t : QueueTrace α) : QueueOp α → QueueTrace α
  | .push x =>
    match t.q.push x with
    | some q2 => { t with q := q2, pushed := t.pushed ++ [x] }
    | none => t
  | .pop =>
    match t.q.pop with
    | some (x, q2) => { t with q := q2, popped := t.popped ++ [x] }
    | none => t

/-- Run a sequence of operations against a fresh queue of capacity `c`
(as created by `BoundedQueue::with_capacity` in `main.rs`, line 246). -/
def runOps (c : Nat) (ops : List (QueueOp α)) : QueueTrace α :=
  ops.foldl stepOp { q := { capacity := c, items := [] }, pushed := [], popped := [] }

end RpcPerf

namespace RpcPerf

/-- Claim C3: `choose_layer_3` implements the three-valued family
restriction exactly: `Err` when both flags are set, `Ok Any` when neither
is, `Ok IpV4` when only `ipv4` is set, `Ok IpV6` when only `ipv6` is. -/
theorem choose_layer_3_truth_table :
    choose_layer_3 true true = .error "Use only --ipv4 or --ipv6" ∧
    choose_layer_3 false false = .ok .Any ∧
    choose_layer_3 true false = .ok .IpV4 ∧
    choose_layer_3 false true = .ok .IpV6 := by
  refine ⟨rfl, rfl, rfl, rfl⟩

/-- Claim C9: the final error branch of `choose_layer_3` is dead code: for
every pair of boolean inputs the function returns from one of the earlier
branches (the conflict error or one of the three `Ok` values), so the
"No InternetProtocols remaining" error is never produced. -/
theorem choose_layer_3_last_branch_unreachable :
    ∀ ipv4 ipv6 : Bool,
      choose_layer_3 ipv4 ipv6 = .error "Use only --ipv4 or --ipv6" ∨
      choose_layer_3 ipv4 ipv6 = .ok .Any ∨
      choose_layer_3 ipv4 ipv6 = .ok .IpV4 ∨
      choose_layer_3 ipv4 ipv6 = .ok .IpV6 := by
  intro ipv4 ipv6
  cases ipv4 <;> cases ipv6
  · exact Or.inr (Or.inl rfl)
  · exact Or.inr (Or.inr (Or.inr rfl))
  · exact Or.inr (Or.inr (Or.inl rfl))
  · exact Or.inl rfl

/-- Claim C1: the spec says `start` exits the process with status 1 exactly
when every initial connection attempt fails, the total being
connections-per-server times the number of servers. The code instead
compares `failures` with `config.connections` alone (`main.rs`, line 113),
so with two servers and two connections each: when the two attempts to the
first server fail and the two to the second succeed, the worker exits with
status 1 even though two connections were established; and when all four
attempts fail, `failures = 4 ≠ 2` and the worker enters the event loop
instead of exiting. -/
theorem start_total_failure_check_wrong :
    startLoop 10 2 (fun a _ => a.id == 2) [⟨some [⟨1⟩]⟩, ⟨some [⟨2⟩]⟩] initState =
      some { failures := 2, connects := 2, table := [0, 1],
             regs := [⟨0, .writable, ⟨true, true⟩⟩, ⟨1, .writable, ⟨true, true⟩⟩],
             attempts := [⟨1⟩, ⟨1⟩, ⟨2⟩, ⟨2⟩] } ∧
    start 10 2 (fun a _ => a.id == 2) [⟨some [⟨1⟩]⟩, ⟨some [⟨2⟩]⟩] = .exitCode 1 ∧
    start 10 2 (fun _ _ => false) [⟨some [⟨1⟩]⟩, ⟨some [⟨2⟩]⟩] =
      .eventLoopRun { failures := 4, connects := 0, table := [], regs := [],
                      attempts := [⟨1⟩, ⟨1⟩, ⟨2⟩, ⟨2⟩] } := by
  refine ⟨rfl, rfl, rfl⟩

/-- Claim C2 counterexample: with both `--ipv4` and `--ipv6` set (all other
inputs benign), `main` takes the `choose_layer_3` error branch and does a
plain `return` (`main.rs`, lines 240-243): the process exit status is 0,
not 1 as the claim states. No connection is attempted. -/
theorem main_both_flags_exit_zero :
    main ⟨true, false, false, 1, true, true, true, true, 4⟩ =
      earlyRet .layer3Conflict ∧
    (main ⟨true, false, false, 1, true, true, true, true, 4⟩).exitCode = 0 := by
  refine ⟨rfl, rfl⟩

/-- Claim C2 amended: when both `--ipv4` and `--ipv6` are set, whatever the
other inputs, `main` returns early — before the work queue is created,
before any workload is launched, before any worker thread is spawned and
before any connection is attempted — and the process exits with status 0
(a plain `return` from `main`), not 1. -/
theorem main_both_flags_early_return (p hlp v : Bool) (sc : Nat) (c pr : Bool) (th : Nat) :
    (main ⟨p, hlp, v, sc, c, true, true, pr, th⟩).returnedEarly = true ∧
    (main ⟨p, hlp, v, sc, c, true, true, pr, th⟩).exitCode = 0 ∧
    (main ⟨p, hlp, v, sc, c, true, true, pr, th⟩).queueCreated = none ∧
    (main ⟨p, hlp, v, sc, c, true, true, pr, th⟩).workloadsLaunched = false ∧
    (main ⟨p, hlp, v, sc, c, true, true, pr, th⟩).threadsSpawned = 0 ∧
    (main ⟨p, hlp, v, sc, c, true, true, pr, th⟩).connectionsAttempted = false := by
  rcases Nat.lt_or_ge sc 1 with hsc | hsc
  · cases p <;> cases hlp <;> cases v <;> cases c <;> cases pr <;>
      (unfold main; rw [if_pos hsc]; exact ⟨rfl, rfl, rfl, rfl, rfl, rfl⟩)
  · cases p <;> cases hlp <;> cases v <;> cases c <;> cases pr <;>
      (unfold main; rw [if_neg (Nat.not_lt.mpr hsc)];
        exact ⟨rfl, rfl, rfl, rfl, rfl, rfl⟩)

/-- Claim C7: when no server is given, or the workload configuration fails
to load, `main` returns early: the work queue is never created, no
workload producer is launched, no worker thread is spawned and no
connection is attempted. -/
theorem main_config_fatal_no_network (sc : Nat) (c i4 i6 pr : Bool) (th : Nat)
    (hfatal : sc = 0 ∨ c = false) :
    (main ⟨true, false, false, sc, c, i4, i6, pr, th⟩).returnedEarly = true ∧
    (main ⟨true, false, false, sc, c, i4, i6, pr, th⟩).exitCode = 0 ∧
    (main ⟨true, false, false, sc, c, i4, i6, pr, th⟩).queueCreated = none ∧
    (main ⟨true, false, false, sc, c, i4, i6, pr, th⟩).workloadsLaunched = false ∧
    (main ⟨true, false, false, sc, c, i4, i6, pr, th⟩).threadsSpawned = 0 ∧
    (main ⟨true, false, false, sc, c, i4, i6, pr, th⟩).connectionsAttempted = false ∧
    ((main ⟨true, false, false, sc, c, i4, i6, pr, th⟩).reason = some .noServers ∨
      (main ⟨true, false, false, sc, c, i4, i6, pr, th⟩).reason = some .configLoadError) := by
  rcases hfatal with h0 | h0
  · subst h0
    exact ⟨rfl, rfl, rfl, rfl, rfl, rfl, Or.inl rfl⟩
  · subst h0
    rcases Nat.lt_or_ge sc 1 with hsc | hsc
    · unfold main
      rw [if_pos hsc]
      exact ⟨rfl, rfl, rfl, rfl, rfl, rfl, Or.inl rfl⟩
    · unfold main
      rw [if_neg (Nat.not_lt.mpr hsc)]
      exact ⟨rfl, rfl, rfl, rfl, rfl, rfl, Or.inr rfl⟩

/-- Witness for the Claim C7 theorem at a concrete input (no servers). -/
theorem main_config_fatal_no_network_witness :
    (main ⟨true, false, false, 0, true, false, false, true, 4⟩).returnedEarly = true ∧
    (main ⟨true, false, false, 0, true, false, false, true, 4⟩).exitCode = 0 ∧
    (main ⟨true, false, false, 0, true, false, false, true, 4⟩).queueCreated = none ∧
    (main ⟨true, false, false, 0, true, false, false, true, 4⟩).workloadsLaunched = false ∧
    (main ⟨true, false, false, 0, true, false, false, true, 4⟩).threadsSpawned = 0 ∧
    (main ⟨true, false, false, 0, true, false, false, true, 4⟩).connectionsAttempted = false ∧
    ((main ⟨true, false, false, 0, true, false, false, true, 4⟩).reason = some .noServers ∨
      (main ⟨true, false, false, 0, true, false, false, true, 4⟩).reason =
        some .configLoadError) :=
  main_config_fatal_no_network 0 true false false true 4 (Or.inl rfl)

/-- Claim C8: on an unparsable command line, `--help` or `--version`,
`main` returns before starting a run — no queue, no workloads, no threads,
no connections — and the process exit status is 0. -/
theorem main_benign_early_return (p hlp v : Bool) (sc : Nat) (c i4 i6 pr : Bool) (th : Nat)
    (h : p = false ∨ hlp = true ∨ v = true) :
    (main ⟨p, hlp, v, sc, c, i4, i6, pr, th⟩).returnedEarly = true ∧
    (main ⟨p, hlp, v, sc, c, i4, i6, pr, th⟩).exitCode = 0 ∧
    (main ⟨p, hlp, v, sc, c, i4, i6, pr, th⟩).queueCreated = none ∧
    (main ⟨p, hlp, v, sc, c, i4, i6, pr, th⟩).workloadsLaunched = false ∧
    (main ⟨p, hlp, v, sc, c, i4, i6, pr, th⟩).threadsSpawned = 0 ∧
    (main ⟨p, hlp, v, sc, c, i4, i6, pr, th⟩).connectionsAttempted = false := by
  rcases h with h0 | h0 | h0
  · subst h0
    exact ⟨rfl, rfl, rfl, rfl, rfl, rfl⟩
  · subst h0
    cases p
    · exact ⟨rfl, rfl, rfl, rfl, rfl, rfl⟩
    · exact ⟨rfl, rfl, rfl, rfl, rfl, rfl⟩
  · subst h0
    cases p <;> cases hlp
    · exact ⟨rfl, rfl, rfl, rfl, rfl, rfl⟩
    · exact ⟨rfl, rfl, rfl, rfl, rfl, rfl⟩
    · exact ⟨rfl, rfl, rfl, rfl, rfl, rfl⟩
    · exact ⟨rfl, rfl, rfl, rfl, rfl, rfl⟩

/-- Witness for the Claim C8 theorem at a concrete input (help flag). -/
theorem main_benign_early_return_witness :
    (main ⟨true, true, false, 2, true, false, false, true, 4⟩).returnedEarly = true ∧
    (main ⟨true, true, false, 2, true, false, false, true, 4⟩).exitCode = 0 ∧
    (main ⟨true, true, false, 2, true, false, false, true, 4⟩).queueCreated = none ∧
    (main ⟨true, true, false, 2, true, false, false, true, 4⟩).workloadsLaunched = false ∧
    (main ⟨true, true, false, 2, true, false, false, true, 4⟩).threadsSpawned = 0 ∧
    (main ⟨true, true, false, 2, true, false, false, true, 4⟩).connectionsAttempted = false :=
  main_benign_early_return true true false 2 true false false true 4
    (Or.inr (Or.inl rfl))

/-- Helper: one queue operation preserves the capacity, keeps the occupied
size within it, and keeps the accounting equation between pushed values,
popped values and queue contents. -/
theorem stepOp_inv {α : Type} (t : QueueTrace α) (op : QueueOp α)
    (hcap : t.q.items.length ≤ t.q.capacity)
    (hacc : t.pushed = t.popped ++ t.q.items) :
    (stepOp t op).q.capacity = t.q.capacity ∧
    (stepOp t op).q.items.length ≤ t.q.capacity ∧
    (stepOp t op).pushed = (stepOp t op).popped ++ (stepOp t op).q.items := by
  cases op with
  | push x =>
    by_cases h : t.q.items.length < t.q.capacity
    · have hp : t.q.push x = some { t.q with items := t.q.items ++ [x] } := by
        unfold BoundedQueue.push
        rw [if_pos h]
      simp only [stepOp, hp]
      refine ⟨by trivial, ?_, ?_⟩
      · simpa using h
      · rw [hacc]
        simp
    · have hp : t.q.push x = none := by
        unfold BoundedQueue.push
        rw [if_neg h]
      simp only [stepOp, hp]
      exact ⟨trivial, hcap, hacc⟩
  | pop =>
    cases hq : t.q.items with
    | nil =>
      have hp : t.q.pop = none := by
        unfold BoundedQueue.pop
        rw [hq]
      simp only [stepOp, hp]
      exact ⟨trivial, hcap, hacc⟩
    | cons y rest =>
      have hp : t.q.pop = some (y, { t.q with items := rest }) := by
        unfold BoundedQueue.pop
        rw [hq]
      simp only [stepOp, hp]
      refine ⟨by trivial, ?_, ?_⟩
      · rw [hq] at hcap
        simp only [List.length_cons] at hcap
        exact Nat.le_of_succ_le hcap
      · rw [hacc, hq]
        simp

/-- Helper: the queue invariants are preserved by any sequence of
operations. -/
theorem foldl_stepOp_inv {α : Type} (ops : List (QueueOp α)) :
    ∀ t : QueueTrace α,
      t.q.items.length ≤ t.q.capacity →
      t.pushed = t.popped ++ t.q.items →
      (ops.foldl stepOp t).q.capacity = t.q.capacity ∧
      (ops.foldl stepOp t).q.items.length ≤ t.q.capacity ∧
      (ops.foldl stepOp t).pushed =
        (ops.foldl stepOp t).popped ++ (ops.foldl stepOp t).q.items := by
  induction ops with
  | nil =>
    intro t h1 h2
    exact ⟨rfl, h1, h2⟩
  | cons op rest ih =>
    intro t h1 h2
    obtain ⟨e1, b1, a1⟩ := stepOp_inv t op h1 h2
    have hb : (stepOp t op).q.items.length ≤ (stepOp t op).q.capacity := by
      rw [e1]
      exact b1
    obtain ⟨e2, b2, a2⟩ := ih (stepOp t op) hb a1
    refine ⟨?_, ?_, ?_⟩
    · rw [List.foldl_cons, e2, e1]
    · rw [List.foldl_cons, ← e1]
      exact b2
    · rw [List.foldl_cons]
      exact a2

/-- Claim C4: the work queue is created (in `main`) only with the fixed
capacity `BUCKET_SIZE = 10000`; for every sequence of pushes and pops
against a queue of that capacity the occupied size never exceeds 10000,
and the pushed values are exactly the popped values followed by the
current contents — in particular every popped value was previously
pushed. -/
theorem work_queue_bounded_no_fabrication :
    (∀ e : Env, (main e).queueCreated = none ∨ (main e).queueCreated = some BUCKET_SIZE) ∧
    BUCKET_SIZE = 10000 ∧
    ∀ ops : List (QueueOp Nat),
      (runOps BUCKET_SIZE ops).q.capacity = 10000 ∧
      (runOps BUCKET_SIZE ops).q.items.length ≤ 10000 ∧
      (runOps BUCKET_SIZE ops).pushed =
        (runOps BUCKET_SIZE ops).popped ++ (runOps BUCKET_SIZE ops).q.items ∧
      ∀ x ∈ (runOps BUCKET_SIZE ops).popped, x ∈ (runOps BUCKET_SIZE ops).pushed := by
  refine ⟨?_, rfl, ?_⟩
  · intro e
    unfold main
    repeat' split
    all_goals first
      | exact Or.inl rfl
      | exact Or.inr rfl
  · intro ops
    obtain ⟨e2, b2, a2⟩ :=
      foldl_stepOp_inv ops ⟨⟨BUCKET_SIZE, []⟩, [], []⟩ (Nat.zero_le _) rfl
    refine ⟨e2, b2, a2, ?_⟩
    intro x hx
    show x ∈ (List.foldl stepOp ⟨⟨BUCKET_SIZE, []⟩, [], []⟩ ops).pushed
    rw [a2]
    exact List.mem_append_left _ hx

/-- Witness for the Claim C4 theorem at a concrete operation sequence. -/
theorem work_queue_bounded_no_fabrication_witness :
    7 ∈ (runOps BUCKET_SIZE [QueueOp.push 7, QueueOp.pop]).pushed :=
  (work_queue_bounded_no_fabrication.2.2 [QueueOp.push 7, QueueOp.pop]).2.2.2 7 (by decide)

/-- Helper: trues and falses of a boolean list partition its length. -/
theorem count_true_add_count_false (l : List Bool) :
    l.count true + l.count false = l.length := by
  induction l with
  | nil => rfl
  | cons b t ih =>
    cases b <;> simp [List.count_cons] <;> omega

/-- Helper: every connection attempt appends exactly its endpoint to the
attempt log. -/
theorem attemptStep_attempts (cap : Nat) (a : Addr) (ok : Bool) (s : StartState) :
    (attemptStep cap a ok s).attempts = s.attempts ++ [a] := by
  cases ok
  · rfl
  · simp only [attemptStep]
    split <;> rfl

/-- Helper: a connection attempt leaves the registration list unchanged or
appends one writable edge-triggered one-shot registration. -/
theorem attemptStep_regs (cap : Nat) (a : Addr) (ok : Bool) (s : StartState) :
    (attemptStep cap a ok s).regs = s.regs ∨
    (attemptStep cap a ok s).regs =
      s.regs ++ [⟨s.table.length, .writable, ⟨true, true⟩⟩] := by
  cases ok
  · exact Or.inl rfl
  · simp only [attemptStep]
    split
    · exact Or.inr rfl
    · exact Or.inl rfl

/-- Helper: every endpoint in the attempt log after a run of attempts
against `a` was there before, or is `a` itself. -/
theorem foldl_attemptStep_attempts (cap : Nat) (a : Addr) :
    ∀ (l : List Bool) (s : StartState),
      ∀ x ∈ (l.foldl (fun st ok => attemptStep cap a ok st) s).attempts,
        x ∈ s.attempts ∨ x = a := by
  intro l
  induction l with
  | nil =>
    intro s x hx
    exact Or.inl hx
  | cons ok rest ih =>
    intro s x hx
    rw [List.foldl_cons] at hx
    rcases ih (attemptStep cap a ok s) x hx with h0 | h0
    · rw [attemptStep_attempts] at h0
      rcases List.mem_append.mp h0 with h1 | h1
      · exact Or.inl h1
      · exact Or.inr (by simpa using h1)
    · exact Or.inr h0

/-- Helper: every registration present after a run of attempts was there
before, or is writable with edge-triggered one-shot options. -/
theorem foldl_attemptStep_regs (cap : Nat) (a : Addr) :
    ∀ (l : List Bool) (s : StartState),
      ∀ r ∈ (l.foldl (fun st ok => attemptStep cap a ok st) s).regs,
        r ∈ s.regs ∨ (r.interest = .writable ∧ r.opts = ⟨true, true⟩) := by
  intro l
  induction l with
  | nil =>
    intro s r hr
    exact Or.inl hr
  | cons ok rest ih =>
    intro s r hr
    rw [List.foldl_cons] at hr
    rcases ih (attemptStep cap a ok s) r hr with h0 | h0
    · rcases attemptStep_regs cap a ok s with he | he
      · rw [he] at h0
        exact Or.inl h0
      · rw [he] at h0
        rcases List.mem_append.mp h0 with h1 | h1
        · exact Or.inl h1
        · right
          have hre : r = ⟨s.table.length, .writable, ⟨true, true⟩⟩ := by
            simpa using h1
          rw [hre]
          exact ⟨rfl, rfl⟩
    · exact Or.inr h0

/-- Helper: counting through a run of attempts. While the connection table
has room for every success, each success adds one connect, one table entry
and one registration, and each failure adds exactly one to the failure
counter. -/
theorem foldl_attemptStep_count (cap : Nat) (a : Addr) :
    ∀ (l : List Bool) (s : StartState),
      s.table.length + l.length ≤ cap →
      (l.foldl (fun st ok => attemptStep cap a ok st) s).connects
          = s.connects + l.count true ∧
      (l.foldl (fun st ok => attemptStep cap a ok st) s).failures
          = s.failures + l.count false ∧
      (l.foldl (fun st ok => attemptStep cap a ok st) s).table.length
          = s.table.length + l.count true ∧
      (l.foldl (fun st ok => attemptStep cap a ok st) s).regs.length
          = s.regs.length + l.count true := by
  intro l
  induction l with
  | nil =>
    intro s _
    simp
  | cons ok rest ih =>
    intro s hcap
    rw [List.foldl_cons]
    cases ok
    · have hc : (attemptStep cap a false s).connects = s.connects := rfl
      have hf : (attemptStep cap a false s).failures = s.failures + 1 := rfl
      have ht : (attemptStep cap a false s).table.length = s.table.length := rfl
      have hr : (attemptStep cap a false s).regs.length = s.regs.length := rfl
      have hle : (attemptStep cap a false s).table.length + rest.length ≤ cap := by
        rw [ht]
        simp only [List.length_cons] at hcap
        omega
      obtain ⟨c1, f1, t1, r1⟩ := ih (attemptStep cap a false s) hle
      rw [hc] at c1
      rw [hf] at f1
      rw [ht] at t1
      rw [hr] at r1
      refine ⟨?_, ?_, ?_, ?_⟩
      · rw [c1, List.count_cons_of_ne (by decide)]
      · rw [f1, List.count_cons_self]
        omega
      · rw [t1, List.count_cons_of_ne (by decide)]
      · rw [r1, List.count_cons_of_ne (by decide)]
    · have hlt : s.table.length < cap := by
        simp only [List.length_cons] at hcap
        omega
      have hc : (attemptStep cap a true s).connects = s.connects + 1 := by
        simp only [attemptStep]
        rw [if_pos hlt]
      have hf : (attemptStep cap a true s).failures = s.failures := by
        simp only [attemptStep]
        rw [if_pos hlt]
      have ht : (attemptStep cap a true s).table.length = s.table.length + 1 := by
        simp only [attemptStep]
        rw [if_pos hlt]
        rw [List.length_append, List.length_singleton]
      have hr : (attemptStep cap a true s).regs.length = s.regs.length + 1 := by
        simp only [attemptStep]
        rw [if_pos hlt]
        rw [List.length_append, List.length_singleton]
      have hle : (attemptStep cap a true s).table.length + rest.length ≤ cap := by
        rw [ht]
        simp only [List.length_cons] at hcap
        omega
      obtain ⟨c1, f1, t1, r1⟩ := ih (attemptStep cap a true s) hle
      rw [hc] at c1
      rw [hf] at f1
      rw [ht] at t1
      rw [hr] at r1
      refine ⟨?_, ?_, ?_, ?_⟩
      · rw [c1, List.count_cons_self]
        omega
      · rw [f1, List.count_cons_of_ne (by decide)]
      · rw [t1, List.count_cons_self]
        omega
      · rw [r1, List.count_cons_self]
        omega

/-- Helper: the per-server inner loop is the fold of the per-attempt step
over the list of that server's attempt outcomes. -/
theorem runAttempts_eq_foldl (cap conns : Nat) (a : Addr) (connOk : Addr → Nat → Bool)
    (s : StartState) :
    runAttempts cap conns a connOk s =
      ((List.range conns).map (connOk a)).foldl (fun st ok => attemptStep cap a ok st) s := by
  unfold runAttempts
  rw [List.foldl_map]

/-- Helper: every endpoint attempted by the server loop is the head of
some listed server's resolution list (or was attempted before the loop). -/
theorem startLoop_attempts (cap conns : Nat) (connOk : Addr → Nat → Bool) :
    ∀ (servers : List ServerCfg) (s0 s : StartState),
      startLoop cap conns connOk servers s0 = some s →
      ∀ x ∈ s.attempts,
        x ∈ s0.attempts ∨ ∃ srv ∈ servers, ∃ tl, srv.addrs = some (x :: tl) := by
  intro servers
  induction servers with
  | nil =>
    intro s0 s h x hx
    have hs : s0 = s := by
      simpa [startLoop] using h
    exact Or.inl (hs ▸ hx)
  | cons srv rest ih =>
    intro s0 s h x hx
    rcases haddr : srv.addrs with _ | l
    · simp [startLoop, haddr] at h
    · cases l with
      | nil => simp [startLoop, haddr] at h
      | cons a tl =>
        simp only [startLoop, haddr] at h
        rw [runAttempts_eq_foldl] at h
        rcases ih _ s h x hx with h0 | h0
        · rcases foldl_attemptStep_attempts cap a _ s0 x h0 with h1 | h1
          · exact Or.inl h1
          · refine Or.inr ⟨srv, List.mem_cons_self srv rest, tl, ?_⟩
            rw [haddr, h1]
        · rcases h0 with ⟨srv2, hm, tl2, he2⟩
          exact Or.inr ⟨srv2, List.mem_cons_of_mem srv hm, tl2, he2⟩

/-- Helper: every registration performed by the server loop is writable
with edge-triggered one-shot options (or predates the loop). -/
theorem startLoop_regs (cap conns : Nat) (connOk : Addr → Nat → Bool) :
    ∀ (servers : List ServerCfg) (s0 s : StartState),
      startLoop cap conns connOk servers s0 = some s →
      ∀ r ∈ s.regs, r ∈ s0.regs ∨ (r.interest = .writable ∧ r.opts = ⟨true, true⟩) := by
  intro servers
  induction servers with
  | nil =>
    intro s0 s h r hr
    have hs : s0 = s := by
      simpa [startLoop] using h
    exact Or.inl (hs ▸ hr)
  | cons srv rest ih =>
    intro s0 s h r hr
    rcases haddr : srv.addrs with _ | l
    · simp [startLoop, haddr] at h
    · cases l with
      | nil => simp [startLoop, haddr] at h
      | cons a tl =>
        simp only [startLoop, haddr] at h
        rw [runAttempts_eq_foldl] at h
        rcases ih _ s h r hr with h0 | h0
        · exact foldl_attemptStep_regs cap a _ s0 r h0
        · exact Or.inr h0

/-- Helper: counting through the whole server loop. While the connection
table has room for every attempt, the loop makes exactly
`conns * servers.length` attempts, of which some number `k` succeed; each
success contributes one connect, one table entry and one registration, and
each of the remaining attempts one failure. -/
theorem startLoop_counts (cap conns : Nat) (connOk : Addr → Nat → Bool) :
    ∀ (servers : List ServerCfg) (s0 s : StartState),
      startLoop cap conns connOk servers s0 = some s →
      s0.table.length + conns * servers.length ≤ cap →
      ∃ k, k ≤ conns * servers.length ∧
        s.connects = s0.connects + k ∧
        s.failures = s0.failures + (conns * servers.length - k) ∧
        s.table.length = s0.table.length + k ∧
        s.regs.length = s0.regs.length + k := by
  intro servers
  induction servers with
  | nil =>
    intro s0 s h _
    have hs : s0 = s := by
      simpa [startLoop] using h
    subst hs
    exact ⟨0, by simp, by simp, by simp, by simp, by simp⟩
  | cons srv rest ih =>
    intro s0 s h hcap
    rcases haddr : srv.addrs with _ | l
    · simp [startLoop, haddr] at h
    · cases l with
      | nil => simp [startLoop, haddr] at h
      | cons a tl =>
        simp only [startLoop, haddr] at h
        rw [runAttempts_eq_foldl] at h
        rw [List.length_cons, Nat.mul_succ] at hcap ⊢
        have hlen : ((List.range conns).map (connOk a)).length = conns := by
          simp
        have hk1le : ((List.range conns).map (connOk a)).count true ≤ conns := by
          calc ((List.range conns).map (connOk a)).count true
              ≤ ((List.range conns).map (connOk a)).length := List.count_le_length _ _
            _ = conns := hlen
        have hsum : ((List.range conns).map (connOk a)).count true +
            ((List.range conns).map (connOk a)).count false = conns := by
          rw [count_true_add_count_false, hlen]
        have hcap1 : s0.table.length + ((List.range conns).map (connOk a)).length ≤ cap := by
          rw [hlen]
          omega
        obtain ⟨c1, f1, t1, r1⟩ :=
          foldl_attemptStep_count cap a ((List.range conns).map (connOk a)) s0 hcap1
        have hcap2 :
            (((List.range conns).map (connOk a)).foldl
                (fun st ok => attemptStep cap a ok st) s0).table.length +
              conns * rest.length ≤ cap := by
          rw [t1]
          omega
        obtain ⟨k2, hk2le, c2, f2, t2, r2⟩ := ih _ s h hcap2
        refine ⟨((List.range conns).map (connOk a)).count true + k2, ?_, ?_, ?_, ?_, ?_⟩
        · omega
        · omega
        · omega
        · omega
        · omega

/-- Helper: the server loop panics (propagates `none`) as soon as any
listed server fails to resolve or resolves to no endpoint. -/
theorem startLoop_none_of_unresolved (cap conns : Nat) (connOk : Addr → Nat → Bool) :
    ∀ (servers : List ServerCfg) (s0 : StartState) (srv : ServerCfg),
      srv ∈ servers → (srv.addrs = none ∨ srv.addrs = some []) →
      startLoop cap conns connOk servers s0 = none := by
  intro servers
  induction servers with
  | nil =>
    intro s0 srv hmem _
    exact absurd hmem (List.not_mem_nil srv)
  | cons hd rest ih =>
    intro s0 srv hmem hbad
    rcases List.mem_cons.mp hmem with he | hm
    · subst he
      rcases hbad with hb | hb
      · simp [startLoop, hb]
      · simp [startLoop, hb]
    · rcases haddr : hd.addrs with _ | l
      · simp [startLoop, haddr]
      · cases l with
        | nil => simp [startLoop, haddr]
        | cons a tl =>
          simp only [startLoop, haddr]
          exact ih _ srv hm hbad

/-- Claim C5: connection establishment uses only the first resolved
endpoint of each server: every endpoint ever passed to
`net::to_mio_tcp_stream` during startup is the head of some configured
server's resolution list; later resolved endpoints are never attempted. -/
theorem start_first_endpoint_only
    (cap conns : Nat) (connOk : Addr → Nat → Bool) (servers : List ServerCfg)
    (s : StartState)
    (h : startLoop cap conns connOk servers initState = some s) :
    ∀ x ∈ s.attempts, ∃ srv ∈ servers, ∃ tl, srv.addrs = some (x :: tl) := by
  intro x hx
  rcases startLoop_attempts cap conns connOk servers initState s h x hx with h0 | h0
  · exact absurd h0 (by simp [initState])
  · exact h0

/-- Witness for the Claim C5 theorem at a concrete input: one server
resolving to two endpoints; the attempted endpoint is the head. -/
theorem start_first_endpoint_only_witness :
    ∃ srv ∈ [ServerCfg.mk (some [⟨5⟩, ⟨6⟩])], ∃ tl,
      srv.addrs = some (Addr.mk 5 :: tl) :=
  start_first_endpoint_only 4 1 (fun _ _ => true) [ServerCfg.mk (some [⟨5⟩, ⟨6⟩])]
    (StartState.mk 0 1 [0] [⟨0, .writable, ⟨true, true⟩⟩] [⟨5⟩]) (by decide)
    (Addr.mk 5) (by decide)

/-- Claim C6: during worker startup, provided the connection table has room
for every attempt, each successful connection attempt yields exactly one
connection-table entry and exactly one event-loop registration — always
for writable readiness with edge-triggered, one-shot options — and each
failed attempt increments the failure counter: successes and failures
together account for every attempt made. -/
theorem start_success_registered_failure_counted
    (cap conns : Nat) (connOk : Addr → Nat → Bool) (servers : List ServerCfg)
    (s : StartState)
    (hcap : conns * servers.length ≤ cap)
    (h : startLoop cap conns connOk servers initState = some s) :
    s.connects + s.failures = conns * servers.length ∧
    s.table.length = s.connects ∧
    s.regs.length = s.connects ∧
    ∀ r ∈ s.regs, r.interest = .writable ∧ r.opts = ⟨true, true⟩ := by
  obtain ⟨k, hk, hc, hf, ht, hr⟩ :=
    startLoop_counts cap conns connOk servers initState s h (by simpa [initState] using hcap)
  have e1 : initState.connects = 0 := rfl
  have e2 : initState.failures = 0 := rfl
  have e3 : initState.table.length = 0 := rfl
  have e4 : initState.regs.length = 0 := rfl
  refine ⟨by omega, by omega, by omega, ?_⟩
  intro r hr2
  rcases startLoop_regs cap conns connOk servers initState s h r hr2 with h0 | h0
  · exact absurd h0 (by simp [initState])
  · exact h0

/-- Witness for the Claim C6 theorem at a concrete input: one server, two
attempts, first succeeds, second fails. -/
theorem start_success_registered_failure_counted_witness :
    2 * [ServerCfg.mk (some [⟨5⟩])].length ≤ 4 ∧
    ((StartState.mk 1 1 [0] [⟨0, .writable, ⟨true, true⟩⟩] [⟨5⟩, ⟨5⟩]).connects +
        (StartState.mk 1 1 [0] [⟨0, .writable, ⟨true, true⟩⟩] [⟨5⟩, ⟨5⟩]).failures =
          2 * [ServerCfg.mk (some [⟨5⟩])].length ∧
      (StartState.mk 1 1 [0] [⟨0, .writable, ⟨true, true⟩⟩] [⟨5⟩, ⟨5⟩]).table.length =
        (StartState.mk 1 1 [0] [⟨0, .writable, ⟨true, true⟩⟩] [⟨5⟩, ⟨5⟩]).connects ∧
      (StartState.mk 1 1 [0] [⟨0, .writable, ⟨true, true⟩⟩] [⟨5⟩, ⟨5⟩]).regs.length =
        (StartState.mk 1 1 [0] [⟨0, .writable, ⟨true, true⟩⟩] [⟨5⟩, ⟨5⟩]).connects ∧
      ∀ r ∈ (StartState.mk 1 1 [0] [⟨0, .writable, ⟨true, true⟩⟩] [⟨5⟩, ⟨5⟩]).regs,
        r.interest = .writable ∧ r.opts = ⟨true, true⟩) :=
  ⟨by decide,
    start_success_registered_failure_counted 4 2 (fun _ i => i == 0)
      [ServerCfg.mk (some [⟨5⟩])]
      (StartState.mk 1 1 [0] [⟨0, .writable, ⟨true, true⟩⟩] [⟨5⟩, ⟨5⟩])
      (by decide) (by decide)⟩

/-- Claim C10: if any configured server fails to resolve or resolves to
zero endpoints, the worker panics on the `unwrap` chain instead of
counting a connection failure: `start` produces neither an exit nor an
event-loop entry, and no failure tally exists at all. -/
theorem start_panics_on_unresolved_server
    (cap conns : Nat) (connOk : Addr → Nat → Bool) (servers : List ServerCfg)
    (srv : ServerCfg) (hmem : srv ∈ servers)
    (hbad : srv.addrs = none ∨ srv.addrs = some []) :
    start cap conns connOk servers = .panicked := by
  have h0 := startLoop_none_of_unresolved cap conns connOk servers initState srv hmem hbad
  unfold start
  rw [h0]

/-- Witness for the Claim C10 theorem at a concrete input: a single server
whose address does not resolve. -/
theorem start_panics_on_unresolved_server_witness :
    ServerCfg.mk none ∈ [ServerCfg.mk none] ∧
    start 4 1 (fun _ _ => true) [ServerCfg.mk none] = .panicked :=
  ⟨by decide,
    start_panics_on_unresolved_server 4 1 (fun _ _ => true) [ServerCfg.mk none]
      (ServerCfg.mk none) (by decide) (Or.inl rfl)⟩

end RpcPerf
